import Mathlib

/-!
# Verification of `http2struct` (github.com/nemre/http2struct)

Shallow embedding of `http2struct.go` (the current, documented version of the
file: the one that starts with the package doc comment; the repository also
carries a superseded earlier copy of the same file, which differs in a few
places noted below).  The embedding models:

* the `File` struct,
* the recursive string-to-value converter `convert`,
* the one-shot JSON body pass `convertBody`,
* the per-field classifier/dispatcher loop of `Convert`.

External collaborators (the `net/http` request, `mime.ParseMediaType`,
`encoding/json`, `io.ReadAll`) are modelled as read-only data carried by the
`Request` record: each such field records the *outcome* the collaborator
would produce for this request, exactly as §1/§6 of the design treat them
(read-only data sources / black boxes).  Go machine integers are modelled as
`Int`/`Nat` with explicit range checks where `strconv` checks ranges.
`strconv.ParseFloat` / `strconv.ParseComplex` produce IEEE values whose
numeric semantics no claim inspects; they are taken as parameters
(`Parsers`), so every theorem below holds for an arbitrary behaviour of
those two parsers.
-/

namespace Http2Struct

/-- `type File struct { Name string; Size int64; Content []byte }`. -/
structure File where
  name : String
  size : Int
  content : List Nat
deriving DecidableEq

/-- The Go `reflect.Kind`/type of a destination field, restricted to the
shapes the source distinguishes.  `file` is the struct type
`http2struct.File` (kind `struct`); `ptr t` is a pointer type (kind `ptr`),
with `ptr file` being `*http2struct.File`; `other k` stands for any other
kind, carrying its `reflect.Kind.String()` name (e.g. `"map"`). -/
inductive GoType where
  | bool
  | int
  | int8
  | int16
  | int32
  | int64
  | uint
  | uint8
  | uint16
  | uint32
  | uint64
  | uintptr
  | float32
  | float64
  | complex64
  | complex128
  | string
  | slice (elem : GoType)
  | ptr (elem : GoType)
  | file
  | other (kind : String)
deriving DecidableEq

/-- `reflect.Kind.String()` of a field's kind, as used in the error
messages of `convert` (`field.Kind().String()`). -/
def GoType.kindString : GoType → String
  | .bool => "bool"
  | .int => "int"
  | .int8 => "int8"
  | .int16 => "int16"
  | .int32 => "int32"
  | .int64 => "int64"
  | .uint => "uint"
  | .uint8 => "uint8"
  | .uint16 => "uint16"
  | .uint32 => "uint32"
  | .uint64 => "uint64"
  | .uintptr => "uintptr"
  | .float32 => "float32"
  | .float64 => "float64"
  | .complex64 => "complex64"
  | .complex128 => "complex128"
  | .string => "string"
  | .slice _ => "slice"
  | .ptr _ => "ptr"
  | .file => "struct"
  | .other k => k

/-- `reflect.Type.Bits()` for the numeric types (platform word = 64 bits,
as on the 64-bit platforms the module targets). -/
def GoType.bits : GoType → Nat
  | .int => 64
  | .int8 => 8
  | .int16 => 16
  | .int32 => 32
  | .int64 => 64
  | .uint => 64
  | .uint8 => 8
  | .uint16 => 16
  | .uint32 => 32
  | .uint64 => 64
  | .uintptr => 64
  | .float32 => 32
  | .float64 => 64
  | .complex64 => 64
  | .complex128 => 128
  | _ => 0

/-- `field.Type.Kind() == reflect.Pointer`. -/
def GoType.isPtrKind : GoType → Bool
  | .ptr _ => true
  | _ => false

/-- `Kind() == reflect.Slice`. -/
def GoType.isSliceKind : GoType → Bool
  | .slice _ => true
  | _ => false

/-- A Go value of one of the shapes above.  Floats and complex numbers carry
the abstract representation produced by the (parameterised) parsers; no
claim inspects their numeric semantics.  `vPtr` is a `*File`-shaped pointer
(`none` = nil); pointers to other types are never constructed by the code
(they fail its type checks), so their zero value is also `vPtr none`. -/
inductive GoValue where
  | vBool (b : Bool)
  | vInt (i : Int)
  | vUint (n : Nat)
  | vFloat (r : String)
  | vComplex (r : String)
  | vString (s : String)
  | vSlice (l : List GoValue)
  | vFile (f : File)
  | vPtr (f : Option File)
  | vOther

/-- The Go zero value of a type, as produced by `reflect.Value.SetZero` and
`reflect.MakeSlice` zero-filling. -/
def GoType.zero : GoType → GoValue
  | .bool => .vBool false
  | .int | .int8 | .int16 | .int32 | .int64 => .vInt 0
  | .uint | .uint8 | .uint16 | .uint32 | .uint64 | .uintptr => .vUint 0
  | .float32 | .float64 => .vFloat "0"
  | .complex64 | .complex128 => .vComplex "0"
  | .string => .vString ""
  | .slice _ => .vSlice []
  | .ptr _ => .vPtr none
  | .file => .vFile ⟨"", 0, []⟩
  | .other _ => .vOther

/-- Errors produced by `convert`, one constructor per `fmt.Errorf` site:
`parse k` = `failed to parse value to k: ...` (wrapping the `strconv`
error), `sliceElemKind k` = `slice element kind k is not supported`,
`sliceElem i e` = `failed to convert slice element for index i: e`,
`kindUnsupported k` = `kind k is not supported`. -/
inductive ConvError where
  | parse (kind : String)
  | sliceElemKind (kind : String)
  | sliceElem (i : Nat) (e : ConvError)
  | kindUnsupported (kind : String)
deriving DecidableEq

/-- `strconv.ParseBool`: accepts exactly 1, t, T, TRUE, true, True,
0, f, F, FALSE, false, False. -/
def parseBoolGo (s : String) : Option Bool :=
  if s = "1" ∨ s = "t" ∨ s = "T" ∨ s = "TRUE" ∨ s = "true" ∨ s = "True" then
    some true
  else if s = "0" ∨ s = "f" ∨ s = "F" ∨ s = "FALSE" ∨ s = "false" ∨ s = "False" then
    some false
  else
    none

/-- Base-10 digit run: `none` on an empty run or any non-digit character
(with an explicit base of 10, `strconv` accepts no underscores). -/
def digitsToNat (cs : List Char) : Option Nat :=
  match cs with
  | [] => none
  | _ =>
    cs.foldl
      (fun acc c =>
        match acc with
        | none => none
        | some n => if c.isDigit then some (n * 10 + (c.toNat - 48)) else none)
      (some 0)

/-- `strconv.ParseUint(s, 10, bits)`: no sign permitted, base-10 digits,
value must fit in `bits` bits. -/
def parseUintGo (s : String) (bits : Nat) : Option Nat :=
  match digitsToNat s.data with
  | none => none
  | some n => if n ≤ 2 ^ bits - 1 then some n else none

/-- `strconv.ParseInt(s, 10, bits)`: optional `+`/`-` sign, base-10 digits,
value in `[-2^(bits-1), 2^(bits-1)-1]`. -/
def parseIntGo (s : String) (bits : Nat) : Option Int :=
  let signed : Bool × List Char :=
    match s.data with
    | '+' :: r => (false, r)
    | '-' :: r => (true, r)
    | r => (false, r)
  match digitsToNat signed.2 with
  | none => none
  | some n =>
    let v : Int := if signed.1 then -(n : Int) else (n : Int)
    if -(2 ^ (bits - 1) : Int) ≤ v ∧ v ≤ 2 ^ (bits - 1) - 1 then some v else none

/-- The two `strconv` parsers whose numeric output no claim inspects:
`parseFloat s bits` models `strconv.ParseFloat(s, bits)` and
`parseComplex s bits` models `strconv.ParseComplex(s, bits)`; `none` is a
parse error, `some r` success with abstract representation `r`.  All
theorems quantify over an arbitrary behaviour of these two. -/
structure Parsers where
  parseFloat : String → Nat → Option String
  parseComplex : String → Nat → Option String

/-- A concrete instance of `Parsers` used by witnesses. -/
def trivialParsers : Parsers := ⟨fun s _ => some s, fun s _ => some s⟩

/-- `strings.Split(value, ",")` on the character list: splits around every
comma; no comma yields the one-element list of the whole input, and the
empty list yields one empty group (`strings.Split("", ",") = [""]`). -/
def splitCommaChars : List Char → List (List Char)
  | [] => [[]]
  | c :: cs =>
    match splitCommaChars cs with
    | [] => if c = ',' then [[], []] else [[c]]
    | g :: gs => if c = ',' then [] :: g :: gs else (c :: g) :: gs

/-- `strings.Split(value, ",")`. -/
def splitComma (s : String) : List String :=
  (splitCommaChars s.data).map (fun l => ⟨l⟩)

/-- Indexed effectful map used by the slice branch of `convert`: the Go
`for i, part := range parts` loop that converts each part and wraps a
failure with its index. -/
def convertParts (g : Nat → String → Except ConvError GoValue) :
    Nat → List String → Except ConvError (List GoValue)
  | _, [] => .ok []
  | i, p :: ps =>
    match g i p with
    | .error e => .error e
    | .ok v =>
      match convertParts g (i + 1) ps with
      | .error e => .error e
      | .ok vs => .ok (v :: vs)

/-- `func convert(field reflect.Value, fieldType reflect.Type, value string) error`
(lines 591-662 of the joined source).  The reflective in-place update is
modelled by value passing: `cur` is the field's current value and the `ok`
result is its value after the call (`ok cur` = no assignment performed).
The slice branch converts each comma-separated part recursively against the
element type, each element starting from its zero value
(`reflect.MakeSlice` zero-fills). -/
def convert (P : Parsers) (τ : GoType) (cur : GoValue) (value : String) :
    Except ConvError GoValue :=
  if value = "" then .ok cur
  else
    match τ with
    | .bool =>
      match parseBoolGo value with
      | some b => .ok (.vBool b)
      | none => .error (.parse (GoType.bool).kindString)
    | .int | .int8 | .int16 | .int32 | .int64 =>
      match parseIntGo value τ.bits with
      | some i => .ok (.vInt i)
      | none => .error (.parse τ.kindString)
    | .uint | .uint8 | .uint16 | .uint32 | .uint64 | .uintptr =>
      match parseUintGo value τ.bits with
      | some n => .ok (.vUint n)
      | none => .error (.parse τ.kindString)
    | .float32 | .float64 =>
      match P.parseFloat value τ.bits with
      | some r => .ok (.vFloat r)
      | none => .error (.parse τ.kindString)
    | .complex64 | .complex128 =>
      match P.parseComplex value τ.bits with
      | some r => .ok (.vComplex r)
      | none => .error (.parse τ.kindString)
    | .slice elem =>
      if elem.isSliceKind then .error (.sliceElemKind elem.kindString)
      else
        match
          convertParts
            (fun i p =>
              match convert P elem elem.zero p with
              | .error e => .error (.sliceElem i e)
              | .ok v => .ok v)
            0 (splitComma value)
        with
        | .error e => .error e
        | .ok l => .ok (.vSlice l)
    | .string => .ok (.vString value)
    | τ' => .error (.kindUnsupported τ'.kindString)
termination_by structural τ


/-- Outcome of `request.FormFile(tag)` followed by `io.ReadAll(file)` for
one part name: `missing` = `http.ErrMissingFile`; `errGet` = any other
`FormFile` error; `errRead` = `io.ReadAll` failure; `ok f` = success, with
`f.name = fileHeader.Filename`, `f.size = fileHeader.Size` and `f.content`
the bytes read. -/
inductive FormFileRes where
  | missing
  | errGet
  | errRead
  | ok (f : File)
deriving DecidableEq

/-- A multi-valued form mapping (`url.Values`), as produced by
`ParseMultipartForm` into `request.PostForm`. -/
def FormMap : Type := List (String × List String)

/-- The read-only view of the `*http.Request` collaborator (§6): each field
records either request data or the outcome an external stdlib collaborator
would produce on this request.  `header` is the canonical-key header map
(`Header.Get`'s case canonicalisation is abstracted into the keys);
`multipartForm` is the outcome of `request.ParseMultipartForm(32 << 20)`
(`none` = error, the 32 MiB threshold being a policy constant with no
observable effect here); `formFile` the per-name outcome of
`request.FormFile`; `bodyDecode` the outcome of the black-box
`json.NewDecoder(request.Body).Decode(destination)` (`none` = decode
error, `some d` = the destination fields after the one-shot decode);
`contentDisposition` the outcome of `mime.ParseMediaType` on the
`Content-Disposition` header; `readBody` the outcome of
`io.ReadAll(request.Body)`. -/
structure Request where
  contentLength : Int
  header : List (String × String)
  query : List (String × String)
  path : List (String × String)
  postForm : Option FormMap
  multipartForm : Option FormMap
  formFile : List (String × FormFileRes)
  bodyDecode : Option (List GoValue)
  contentDisposition : Except Unit (List (String × String))
  readBody : Except Unit (List Nat)

/-- `request.Header.Get(k)` / `request.URL.Query().Get(k)` /
`request.PathValue(k)`: first value for the key, or `""`. -/
def lookupGet (m : List (String × String)) (k : String) : String :=
  match m.lookup k with
  | some v => v
  | none => ""

/-- `request.PostForm[tag]`: the value list for a key of a parsed form
(missing key = empty list). -/
def lookupFormValues (m : FormMap) (k : String) : List String :=
  match m.lookup k with
  | some vs => vs
  | none => []

/-- The result of `request.FormFile(tag)` in the model: parts not present
behave as `http.ErrMissingFile`. -/
def lookupFormFile (ff : List (String × FormFileRes)) (k : String) : FormFileRes :=
  match ff.lookup k with
  | some r => r
  | none => .missing

/-- `params[k]` on the parameter map of `mime.ParseMediaType` (missing key
= `""`). -/
def paramGet (params : List (String × String)) (k : String) : String :=
  match params.lookup k with
  | some v => v
  | none => ""

/-- The whitespace set trimmed by `strings.TrimSpace` (ASCII portion of
Unicode White_Space; the claims involve no non-ASCII header values). -/
def isSpaceGo (c : Char) : Bool :=
  c = ' ' ∨ c = '\t' ∨ c = '\n' ∨ c = '\r' ∨ c = Char.ofNat 11 ∨ c = Char.ofNat 12

/-- `strings.TrimSpace`. -/
def trimGo (s : String) : String :=
  ⟨((s.data.dropWhile isSpaceGo).reverse.dropWhile isSpaceGo).reverse⟩

/-- The `before` component of `strings.Cut(s, ";")`: everything before the
first `;`, or all of `s` when there is none. -/
def cutSemicolon (s : String) : String :=
  match s.data.takeWhile (fun c => c ≠ ';') with
  | l => ⟨l⟩

/-- One declared field of the destination struct: its name, Go type,
`IsExported()`, `CanSet()` and tag list (`Tag.Lookup` = first entry for the
key). -/
structure Field where
  name : String
  type : GoType
  exported : Bool
  canSet : Bool
  tags : List (String × String)
deriving DecidableEq

/-- `field.Tag.Lookup(key)`. -/
def lookupTag (f : Field) (key : String) : Option String :=
  f.tags.lookup key

/-- The guard `ok && tag != "" && tag != "-"` applied by `Convert` to the
`form`, `header`, `query` and `path` tags. -/
def tagUsable (t : Option String) : Bool :=
  match t with
  | some s => s ≠ "" && s ≠ "-"
  | none => false

/-- The guard of the named-file branch:
`ok && tag != "" && tag != "-" && tag != "binary"`. -/
def fileNamedUsable (t : Option String) : Bool :=
  match t with
  | some s => s ≠ "" && s ≠ "-" && s ≠ "binary"
  | none => false

/-- Errors returned by `Convert`, one constructor per `return fmt.Errorf`
site of the entry point: `bodyDecode` = the decode failure of
`convertBody`, wrapped by `Convert` as `failed to convert body`;
`formParse` = `failed to parse request multipart form`; `fieldConvert` =
`failed to convert %q <source> to %q field` wrapping a `ConvError`;
`unsupportedType` = `%q type is not supported for %q field` (carrying the
offending field type and field name); `formFileGet` / `formFileRead` /
`rawBodyRead` = the named/binary file extraction failures. -/
inductive Source where
  | form
  | header
  | query
  | path
deriving DecidableEq

inductive BindError where
  | bodyDecode
  | formParse
  | fieldConvert (src : Source) (tag field : String) (e : ConvError)
  | unsupportedType (t : GoType) (field : String)
  | formFileGet (tag field : String)
  | formFileRead (tag field : String)
  | rawBodyRead (tag field : String)
deriving DecidableEq

/-- The state of one iteration of `Convert`'s field loop: the field's value
after the iteration, the (possibly newly parsed) `request.PostForm`, and
whether the iteration executed `return nil` for the whole call (the
zero-content-length exit of the binary branch). -/
structure FieldStep where
  value : GoValue
  postForm : Option FormMap
  early : Bool

/-- The shared tail of the `form`, `header`, `query` and `path` branches:
`convert(fieldValue, field.Type, v)` on the zeroed field, wrapping a
failure as `failed to convert %q <source> to %q field`. -/
def convertBranch (P : Parsers) (src : Source) (raw tag fname : String) (τ : GoType) :
    Except BindError GoValue :=
  match convert P τ τ.zero raw with
  | .error e => .error (.fieldConvert src tag fname e)
  | .ok w => .ok w

/-- The `form` branch (lines 396-415): parse the multipart form if
`request.PostForm` is still nil (aborting on a parse failure), take the
first value of the tagged key, and convert it.  On success it records the
now non-nil form for the later fields. -/
def formBranch (P : Parsers) (pform mform : Option FormMap) (tag fname : String)
    (τ : GoType) : Except BindError FieldStep :=
  let parsed : Except BindError FormMap :=
    match pform with
    | some m => .ok m
    | none =>
      match mform with
      | some m => .ok m
      | none => .error .formParse
  match parsed with
  | .error e => .error e
  | .ok m =>
    let v : String :=
      match lookupFormValues m tag with
      | p :: _ => p
      | [] => ""
    match convertBranch P .form v tag fname τ with
    | .error e => .error e
    | .ok w => .ok ⟨w, some m, false⟩

/-- The named-file branch (lines 417-463): reject non-`File` field types,
skip the field unless the content type is `multipart/form-data`, skip it on
`http.ErrMissingFile`, abort on other extraction errors, and otherwise
assign the read `File` (or a pointer to it).  `cur` is the field's value at
branch entry (the zero value set by the loop); skip paths leave it
untouched. -/
def fileNamedBranch (cur : GoValue) (contentType : String)
    (ff : List (String × FormFileRes)) (tag fname : String) (τ : GoType) :
    Except BindError GoValue :=
  if τ.isPtrKind = false ∧ τ ≠ .file then .error (.unsupportedType τ fname)
  else if τ.isPtrKind = true ∧ τ ≠ .ptr .file then .error (.unsupportedType τ fname)
  else if trimGo (cutSemicolon contentType) ≠ "multipart/form-data" then .ok cur
  else
    match lookupFormFile ff tag with
    | .missing => .ok cur
    | .errGet => .error (.formFileGet tag fname)
    | .errRead => .error (.formFileRead tag fname)
    | .ok f =>
      if τ.isPtrKind then .ok (.vPtr (some f)) else .ok (.vFile f)

/-- The binary-file branch (lines 465-515): reject non-`File` field types;
on zero declared content length `return nil` from the whole `Convert`
(`early = true`) without touching the field; skip the field when
`Content-Disposition` fails to parse or names no filename; abort when the
body read fails; otherwise assign a `File` made of the parsed filename, the
declared content length and the body bytes.  `cur` is the field's value at
branch entry. -/
def fileBinaryBranch (cur : GoValue) (contentLength : Int)
    (cd : Except Unit (List (String × String))) (rb : Except Unit (List Nat))
    (fname : String) (τ : GoType) (pform : Option FormMap) :
    Except BindError FieldStep :=
  if τ.isPtrKind = false ∧ τ ≠ .file then .error (.unsupportedType τ fname)
  else if τ.isPtrKind = true ∧ τ ≠ .ptr .file then .error (.unsupportedType τ fname)
  else if contentLength = 0 then .ok ⟨cur, pform, true⟩
  else
    match cd with
    | .error _ => .ok ⟨cur, pform, false⟩
    | .ok params =>
      let filename : String :=
        match paramGet params "filename" with
        | "" => paramGet params "filename*"
        | f0 => f0
      if filename = "" then .ok ⟨cur, pform, false⟩
      else
        match rb with
        | .error _ => .error (.rawBodyRead "binary" fname)
        | .ok content =>
          let f : File := ⟨filename, contentLength, content⟩
          if τ.isPtrKind then .ok ⟨.vPtr (some f), pform, false⟩
          else .ok ⟨.vFile f, pform, false⟩

/-- One iteration of `Convert`'s field loop (lines 381-549): skip
unexported or unsettable fields, otherwise `fieldValue.SetZero()` and test
the source tags in source order — `form`, named `file`, `file:"binary"`,
`header`, `query`, `path` — running the first branch whose guard holds.
`v` is the field's value on entry (the caller-supplied content). -/
def processField (P : Parsers) (req : Request) (f : Field) (v : GoValue)
    (pform : Option FormMap) : Except BindError FieldStep :=
  if f.exported = false then .ok ⟨v, pform, false⟩
  else if f.canSet = false then .ok ⟨v, pform, false⟩
  else
    let cur := f.type.zero
    if tagUsable (lookupTag f "form") then
      formBranch P pform req.multipartForm ((lookupTag f "form").getD "") f.name f.type
    else if fileNamedUsable (lookupTag f "file") then
      match
        fileNamedBranch cur (lookupGet req.header "Content-Type") req.formFile
          ((lookupTag f "file").getD "") f.name f.type
      with
      | .error e => .error e
      | .ok w => .ok ⟨w, pform, false⟩
    else if lookupTag f "file" = some "binary" then
      fileBinaryBranch cur req.contentLength req.contentDisposition req.readBody
        f.name f.type pform
    else if tagUsable (lookupTag f "header") then
      match
        convertBranch P .header (lookupGet req.header ((lookupTag f "header").getD ""))
          ((lookupTag f "header").getD "") f.name f.type
      with
      | .error e => .error e
      | .ok w => .ok ⟨w, pform, false⟩
    else if tagUsable (lookupTag f "query") then
      match
        convertBranch P .query (lookupGet req.query ((lookupTag f "query").getD ""))
          ((lookupTag f "query").getD "") f.name f.type
      with
      | .error e => .error e
      | .ok w => .ok ⟨w, pform, false⟩
    else if tagUsable (lookupTag f "path") then
      match
        convertBranch P .path (lookupGet req.path ((lookupTag f "path").getD ""))
          ((lookupTag f "path").getD "") f.name f.type
      with
      | .error e => .error e
      | .ok w => .ok ⟨w, pform, false⟩
    else
      .ok ⟨cur, pform, false⟩

/-- `Convert`'s field loop over the remaining fields and their values,
threading `request.PostForm`.  An `early = true` step is the `return nil`
of the binary branch: the loop stops successfully and every remaining
value is returned untouched. -/
def convertLoop (P : Parsers) (req : Request) :
    List Field → List GoValue → Option FormMap → Except BindError (List GoValue)
  | [], vs, _ => .ok vs
  | _ :: _, [], _ => .ok []
  | f :: fs, v :: vs, pform =>
    match processField P req f v pform with
    | .error e => .error e
    | .ok st =>
      if st.early then .ok (st.value :: vs)
      else
        match convertLoop P req fs vs st.postForm with
        | .error e => .error e
        | .ok vs2 => .ok (st.value :: vs2)

/-- The field scan of `convertBody` (lines 565-586): find the first
exported field whose `json` tag is present and is not `"-"`, and decode the
body into the destination once (`break`); a decode failure aborts.  The
`Bool` of the result records whether the decode ran (i.e. whether the body
stream was consumed). -/
def bodyFieldScan (bd : Option (List GoValue)) (dest : List GoValue) :
    List Field → Except BindError (List GoValue × Bool)
  | [] => .ok (dest, false)
  | f :: fs =>
    if f.exported = false then bodyFieldScan bd dest fs
    else
      match lookupTag f "json" with
      | none => bodyFieldScan bd dest fs
      | some t =>
        if t = "-" then bodyFieldScan bd dest fs
        else
          match bd with
          | none => .error .bodyDecode
          | some d => .ok (d, true)

/-- `func convertBody(...)` (lines 554-589): a no-op unless the declared
content length is non-zero and the content type before any `;`, after
`strings.TrimSpace`, is exactly `application/json`. -/
def convertBody (req : Request) (fields : List Field) (dest : List GoValue) :
    Except BindError (List GoValue × Bool) :=
  if req.contentLength = 0 then .ok (dest, false)
  else if trimGo (cutSemicolon (lookupGet req.header "Content-Type")) ≠ "application/json" then
    .ok (dest, false)
  else bodyFieldScan req.bodyDecode dest fields

/-- `func Convert(request *http.Request, destination any) error`, from the
body-decode call onwards (lines 375-552).  The nil-request / nil- or
non-pointer- / non-struct-destination guards (lines 355-373) concern Go's
`any`/pointer representation and are outside this embedding: `fields` is
the field descriptor list of the destination struct type and `dest` its
field values, `destination` already being a pointer to a struct.  The
`Bool` of the result records whether the JSON body pass consumed the body.
-/
def Convert (P : Parsers) (req : Request) (fields : List Field)
    (dest : List GoValue) : Except BindError (List GoValue × Bool) :=
  match convertBody req fields dest with
  | .error e => .error e
  | .ok (d, decoded) =>
    match convertLoop P req fields d req.postForm with
    | .error e => .error e
    | .ok vs => .ok (vs, decoded)

/-! ## Specification-side definitions

These are written from the spec's words (not the source) and compared with
the source-derived definitions above by the refinement theorems below. -/

/-- The six data sources of §4.3, in the spec's fixed precedence order
`form > file (named) > file (binary) > header > query > path`. -/
inductive SrcKind where
  | form
  | fileNamed
  | fileBinary
  | header
  | query
  | path
deriving DecidableEq

/-- Written from the spec: the single source bound for a field — the first
tag in precedence order `form > file > header > query > path` whose value
is non-empty and not the skip marker `-` (a named file tag and the
`binary` file tag being the two forms of the `file` source); `none` when
no source tag is usable. -/
def selectSource (f : Field) : Option SrcKind :=
  if tagUsable (lookupTag f "form") then some .form
  else if fileNamedUsable (lookupTag f "file") then some .fileNamed
  else if lookupTag f "file" = some "binary" then some .fileBinary
  else if tagUsable (lookupTag f "header") then some .header
  else if tagUsable (lookupTag f "query") then some .query
  else if tagUsable (lookupTag f "path") then some .path
  else none

/-- Written from the spec: process a field by running only the branch of
its selected source.  Each branch receives only the request components its
source consists of (the form branch the parsed-form state, the named file
branch the content type and the part table, the binary file branch the
content length, content disposition and body, the header/query/path
branches their own lookup tables), so a field's binding cannot consult any
other source. -/
def dispatchBySelect (P : Parsers) (req : Request) (f : Field) (v : GoValue)
    (pform : Option FormMap) : Except BindError FieldStep :=
  if f.exported = false then .ok ⟨v, pform, false⟩
  else if f.canSet = false then .ok ⟨v, pform, false⟩
  else
    let cur := f.type.zero
    match selectSource f with
    | some .form =>
      formBranch P pform req.multipartForm ((lookupTag f "form").getD "") f.name f.type
    | some .fileNamed =>
      match
        fileNamedBranch cur (lookupGet req.header "Content-Type") req.formFile
          ((lookupTag f "file").getD "") f.name f.type
      with
      | .error e => .error e
      | .ok w => .ok ⟨w, pform, false⟩
    | some .fileBinary =>
      fileBinaryBranch cur req.contentLength req.contentDisposition req.readBody
        f.name f.type pform
    | some .header =>
      match
        convertBranch P .header (lookupGet req.header ((lookupTag f "header").getD ""))
          ((lookupTag f "header").getD "") f.name f.type
      with
      | .error e => .error e
      | .ok w => .ok ⟨w, pform, false⟩
    | some .query =>
      match
        convertBranch P .query (lookupGet req.query ((lookupTag f "query").getD ""))
          ((lookupTag f "query").getD "") f.name f.type
      with
      | .error e => .error e
      | .ok w => .ok ⟨w, pform, false⟩
    | some .path =>
      match
        convertBranch P .path (lookupGet req.path ((lookupTag f "path").getD ""))
          ((lookupTag f "path").getD "") f.name f.type
      with
      | .error e => .error e
      | .ok w => .ok ⟨w, pform, false⟩
    | none => .ok ⟨cur, pform, false⟩

/-! ## Claims -/

/-- C1.  For every destination field (in particular one carrying tags for
more than one source), `Convert`'s per-field step binds the field from
exactly the single source chosen by the fixed precedence
`form > file > header > query > path` — the first tag in that order whose
value is non-empty and not `-` — and runs only that source's branch, whose
inputs are only that source's request components, so lower-precedence
sources are never consulted for the field. -/
theorem processField_eq_dispatchBySelect (P : Parsers) (req : Request)
    (f : Field) (v : GoValue) (pform : Option FormMap) :
    processField P req f v pform = dispatchBySelect P req f v pform := by
  unfold processField dispatchBySelect selectSource
  split_ifs <;> rfl

/-- Unfolding equation of `convert` at a slice type (proved by
reflexivity; stated once so later proofs can rewrite with it). -/
theorem convert_slice_eq (P : Parsers) (elem : GoType) (cur : GoValue) (value : String) :
    convert P (.slice elem) cur value =
      if value = "" then .ok cur
      else if elem.isSliceKind then .error (.sliceElemKind elem.kindString)
      else
        match
          convertParts
            (fun i p =>
              match convert P elem elem.zero p with
              | .error e => .error (.sliceElem i e)
              | .ok v => .ok v)
            0 (splitComma value)
        with
        | .error e => .error e
        | .ok l => .ok (.vSlice l) := rfl

/-- C2.  For every target type and every current field value, converting an
empty raw value returns no error and makes no assignment; at `Convert`'s
call sites the field was just reset, so it ends at its zero value (second
conjunct, for the shared branch tail `convertBranch`). -/
theorem convert_empty_value_no_error :
    (∀ (P : Parsers) (τ : GoType) (cur : GoValue), convert P τ cur "" = .ok cur)
    ∧ ∀ (P : Parsers) (src : Source) (tag fname : String) (τ : GoType),
        convertBranch P src "" tag fname τ = .ok τ.zero := by
  constructor
  · intro P τ cur
    cases τ <;> rfl
  · intro P src tag fname τ
    unfold convertBranch
    cases τ <;> rfl

/-- Auxiliary: a successful `convertParts` run produces one output per
part, in input order: output `j` is `g` applied to part `j` (with the
running index `i + j`). -/
theorem convertParts_ok (g : Nat → String → Except ConvError GoValue) :
    ∀ (parts : List String) (i : Nat) (l : List GoValue),
      convertParts g i parts = .ok l →
      l.length = parts.length ∧
        ∀ j (hj : j < parts.length) (hl : j < l.length),
          g (i + j) (parts.get ⟨j, hj⟩) = .ok (l.get ⟨j, hl⟩) := by
  intro parts
  induction parts with
  | nil =>
    intro i l h
    unfold convertParts at h
    injection h with h
    subst h
    exact ⟨rfl, fun j hj => absurd hj (Nat.not_lt_zero j)⟩
  | cons p ps ih =>
    intro i l h
    unfold convertParts at h
    cases hg : g i p with
    | error e => rw [hg] at h; cases h
    | ok v =>
      rw [hg] at h
      cases hr : convertParts g (i + 1) ps with
      | error e => rw [hr] at h; cases h
      | ok vs =>
        rw [hr] at h
        injection h with h
        subst h
        obtain ⟨hlen, hidx⟩ := ih (i + 1) vs hr
        refine ⟨by simp [hlen], ?_⟩
        intro j hj hl
        cases j with
        | zero => simpa using hg
        | succ k =>
          have hk : k < ps.length := by simpa using hj
          have hk2 : k < vs.length := by simpa [hlen] using hl
          have hgoal := hidx k hk hk2
          have harith : i + 1 + k = i + (k + 1) := by omega
          rw [harith] at hgoal
          simpa using hgoal

/-- Auxiliary: a failing `convertParts` run fails at the first failing
part, with the error `g` produced there; all earlier parts succeeded. -/
theorem convertParts_err (g : Nat → String → Except ConvError GoValue) :
    ∀ (parts : List String) (i : Nat) (err : ConvError),
      convertParts g i parts = .error err →
      ∃ j, ∃ (hj : j < parts.length),
        g (i + j) (parts.get ⟨j, hj⟩) = .error err ∧
        ∀ k (hk : k < parts.length), k < j →
          ∃ w, g (i + k) (parts.get ⟨k, hk⟩) = .ok w := by
  intro parts
  induction parts with
  | nil =>
    intro i err h
    unfold convertParts at h
    cases h
  | cons p ps ih =>
    intro i err h
    unfold convertParts at h
    cases hg : g i p with
    | error e =>
      rw [hg] at h
      injection h with h
      subst h
      exact ⟨0, Nat.succ_pos _, by simpa using hg,
        fun k hk hk0 => absurd hk0 (Nat.not_lt_zero k)⟩
    | ok v =>
      rw [hg] at h
      cases hr : convertParts g (i + 1) ps with
      | error e =>
        rw [hr] at h
        injection h with h
        subst h
        obtain ⟨j, hj, hfail, hpre⟩ := ih (i + 1) e hr
        refine ⟨j + 1, by simpa using Nat.succ_lt_succ hj, ?_, ?_⟩
        · have harith : i + (j + 1) = i + 1 + j := by omega
          rw [harith]
          simpa using hfail
        · intro k hk hklt
          cases k with
          | zero => exact ⟨v, by simpa using hg⟩
          | succ m =>
            have hm : m < ps.length := by simpa using hk
            obtain ⟨w, hw⟩ := hpre m hm (Nat.lt_of_succ_lt_succ hklt)
            refine ⟨w, ?_⟩
            have harith : i + (m + 1) = i + 1 + m := by omega
            rw [harith]
            simpa using hw
      | ok vs =>
        rw [hr] at h
        cases h

/-- C3.  Slice conversion: `"1,2,3"` against an integer element type gives
the ordered sequence `[1,2,3]`; the empty string leaves the just-reset
empty result (not `[""]`); in general a successful conversion of a
non-empty input has one element per comma-separated part, each element
being the element-type conversion of the corresponding part in input
order; and a failure on a non-empty input is the `sliceElem` wrapping of
the first failing part's error, carrying that part's index. -/
theorem slice_conversion_spec :
    (∀ (P : Parsers) (cur : GoValue),
        convert P (.slice .int) cur "1,2,3" = .ok (.vSlice [.vInt 1, .vInt 2, .vInt 3]))
    ∧ (∀ (P : Parsers),
        convert P (.slice .int) (GoType.slice .int).zero "" = .ok (.vSlice []))
    ∧ (∀ (P : Parsers) (elem : GoType) (cur : GoValue) (value : String) (l : List GoValue),
        value ≠ "" → convert P (.slice elem) cur value = .ok (.vSlice l) →
          l.length = (splitComma value).length ∧
            ∀ j (hj : j < (splitComma value).length) (hl : j < l.length),
              convert P elem elem.zero ((splitComma value).get ⟨j, hj⟩) = .ok (l.get ⟨j, hl⟩))
    ∧ ∀ (P : Parsers) (elem : GoType) (cur : GoValue) (value : String) (err : ConvError),
        value ≠ "" → elem.isSliceKind = false →
        convert P (.slice elem) cur value = .error err →
          ∃ j e, ∃ (hj : j < (splitComma value).length),
            err = .sliceElem j e ∧
            convert P elem elem.zero ((splitComma value).get ⟨j, hj⟩) = .error e ∧
            ∀ k (hk : k < (splitComma value).length), k < j →
              ∃ w, convert P elem elem.zero ((splitComma value).get ⟨k, hk⟩) = .ok w := by
  refine ⟨fun P cur => rfl, fun P => rfl, ?_, ?_⟩
  · intro P elem cur value l hval h
    rw [convert_slice_eq] at h
    rw [if_neg hval] at h
    by_cases hsl : elem.isSliceKind = true
    · rw [if_pos hsl] at h
      cases h
    · rw [if_neg hsl] at h
      cases hcp : convertParts
          (fun i p =>
            match convert P elem elem.zero p with
            | .error e => .error (.sliceElem i e)
            | .ok v => .ok v)
          0 (splitComma value) with
      | error e => rw [hcp] at h; cases h
      | ok l2 =>
        rw [hcp] at h
        injection h with h
        have hll : l2 = l := by
          cases h
          rfl
        subst hll
        obtain ⟨hlen, hidx⟩ := convertParts_ok _ (splitComma value) 0 l2 hcp
        refine ⟨hlen, ?_⟩
        intro j hj hl
        have hg := hidx j hj hl
        rw [Nat.zero_add] at hg
        cases hc : convert P elem elem.zero ((splitComma value).get ⟨j, hj⟩) with
        | error e => rw [hc] at hg; cases hg
        | ok w =>
          rw [hc] at hg
          injection hg with hg
          rw [hg]
  · intro P elem cur value err hval hsl h
    rw [convert_slice_eq] at h
    rw [if_neg hval] at h
    rw [if_neg (by simp [hsl])] at h
    cases hcp : convertParts
        (fun i p =>
          match convert P elem elem.zero p with
          | .error e => .error (.sliceElem i e)
          | .ok v => .ok v)
        0 (splitComma value) with
    | ok l2 => rw [hcp] at h; cases h
    | error e2 =>
      rw [hcp] at h
      injection h with h
      subst h
      obtain ⟨j, hj, hfail, hpre⟩ := convertParts_err _ (splitComma value) 0 e2 hcp
      rw [Nat.zero_add] at hfail
      cases hc : convert P elem elem.zero ((splitComma value).get ⟨j, hj⟩) with
      | ok w => rw [hc] at hfail; cases hfail
      | error e =>
        rw [hc] at hfail
        injection hfail with hfail
        refine ⟨j, e, hj, hfail.symm, hc, ?_⟩
        intro k hk hklt
        obtain ⟨w, hw⟩ := hpre k hk hklt
        rw [Nat.zero_add] at hw
        cases hc2 : convert P elem elem.zero ((splitComma value).get ⟨k, hk⟩) with
        | error e3 => rw [hc2] at hw; cases hw
        | ok w2 => exact ⟨w2, rfl⟩

/-- Witness for C3: the general part applied at `"7,8"` with element type
`int`. -/
theorem slice_conversion_spec_witness :
    ("7,8" : String) ≠ "" ∧
      ([GoValue.vInt 7, GoValue.vInt 8].length = (splitComma "7,8").length) :=
  ⟨by decide,
    (slice_conversion_spec.2.2.1 trivialParsers .int (.vBool false) "7,8"
      [.vInt 7, .vInt 8] (by decide) rfl).1⟩

/-- Counterexample to C4 as stated: on the empty input a slice-of-slice
target is *not* rejected — the empty-value rule of `convert` fires first
and returns successfully without touching the field, so the rejection is
not independent of the input value. -/
theorem sliceOfSlice_empty_not_rejected_cex :
    convert trivialParsers (.slice (.slice .int)) ((GoType.slice (.slice .int)).zero) "" =
      .ok ((GoType.slice (.slice .int)).zero) := rfl

/-- C4 as amended: for every slice-of-slice target type and every
*non-empty* input value, conversion is rejected with the unsupported
slice-element-kind error; the rejection depends only on the type, not on
the (non-empty) input value. -/
theorem sliceOfSlice_rejected (P : Parsers) (elem : GoType) (cur : GoValue)
    (value : String) (h : value ≠ "") :
    convert P (.slice (.slice elem)) cur value = .error (.sliceElemKind "slice") := by
  rw [convert_slice_eq]
  rw [if_neg h]
  simp [GoType.isSliceKind, GoType.kindString]

/-- Witness for the amended C4 at input `"x"`. -/
theorem sliceOfSlice_rejected_witness :
    ("x" : String) ≠ "" ∧
      convert trivialParsers (.slice (.slice .int)) (.vSlice []) "x" =
        .error (.sliceElemKind "slice") :=
  ⟨by decide, sliceOfSlice_rejected trivialParsers .int (.vSlice []) "x" (by decide)⟩

/-- Written from the spec: an exported destination field carrying a `json`
tag that is not `"-"` (a body-source tag). -/
def jsonTagged (f : Field) : Bool :=
  f.exported &&
    match lookupTag f "json" with
    | some t => t != "-"
    | none => false

/-- Written from the spec (as amended): the body pass triggers iff the
declared content length is non-zero, the declared content type before any
`;`, after trimming surrounding whitespace, is exactly `application/json`,
and some destination field carries a body-source tag. -/
def bodyPassCond (req : Request) (fields : List Field) : Bool :=
  (req.contentLength != 0) &&
    (trimGo (cutSemicolon (lookupGet req.header "Content-Type")) == "application/json") &&
    fields.any jsonTagged

/-- Unfolding equation of `bodyFieldScan` on a cons cell (by
reflexivity). -/
theorem bodyFieldScan_cons (bd : Option (List GoValue)) (dest : List GoValue)
    (f : Field) (fs : List Field) :
    bodyFieldScan bd dest (f :: fs) =
      if f.exported = false then bodyFieldScan bd dest fs
      else
        match lookupTag f "json" with
        | none => bodyFieldScan bd dest fs
        | some t =>
          if t = "-" then bodyFieldScan bd dest fs
          else
            match bd with
            | none => .error .bodyDecode
            | some d => .ok (d, true) := rfl

/-- Auxiliary: the field scan of `convertBody` is a no-op exactly when no
field is body-tagged. -/
theorem bodyFieldScan_no_tag (bd : Option (List GoValue)) (dest : List GoValue) :
    ∀ (fields : List Field), fields.any jsonTagged = false →
      bodyFieldScan bd dest fields = .ok (dest, false) := by
  intro fields
  induction fields with
  | nil => intro _; rfl
  | cons f fs ih =>
    intro h
    rw [List.any_cons, Bool.or_eq_false_iff] at h
    obtain ⟨h1, h2⟩ := h
    rw [bodyFieldScan_cons]
    unfold jsonTagged at h1
    cases hex : f.exported with
    | false => exact ih h2
    | true =>
      rw [hex] at h1
      rw [Bool.true_and] at h1
      cases ht : lookupTag f "json" with
      | none => exact ih h2
      | some t =>
        rw [ht] at h1
        have hd : t = "-" := by simpa using h1
        subst hd
        exact ih h2

/-- Auxiliary: when some field is body-tagged, the field scan performs the
single decode. -/
theorem bodyFieldScan_tagged (bd : Option (List GoValue)) (dest : List GoValue) :
    ∀ (fields : List Field), fields.any jsonTagged = true →
      bodyFieldScan bd dest fields =
        match bd with
        | none => .error .bodyDecode
        | some d => .ok (d, true) := by
  intro fields
  induction fields with
  | nil => intro h; cases h
  | cons f fs ih =>
    intro h
    rw [List.any_cons] at h
    rw [bodyFieldScan_cons]
    by_cases hf : jsonTagged f = true
    · unfold jsonTagged at hf
      rw [Bool.and_eq_true] at hf
      obtain ⟨h1, h2⟩ := hf
      rw [h1]
      cases ht : lookupTag f "json" with
      | none => rw [ht] at h2; cases h2
      | some t =>
        rw [ht] at h2
        have hne : ¬(t = "-") := by simpa using h2
        simp [hne]
    · have hfs : fs.any jsonTagged = true := by
        rw [Bool.or_eq_true] at h
        rcases h with hl | hr
        · exact absurd hl hf
        · exact hr
      unfold jsonTagged at hf
      cases hex : f.exported with
      | false => exact ih hfs
      | true =>
        rw [hex] at hf
        rw [Bool.true_and] at hf
        cases ht : lookupTag f "json" with
        | none => exact ih hfs
        | some t =>
          have hd : t = "-" := by
            rw [ht] at hf
            by_contra hne
            exact hf (by simpa using hne)
          subst hd
          exact ih hfs

/-- C5 (as amended).  The JSON body pass decodes the body into the
destination exactly once, before the per-field loop, iff the declared
content length is non-zero, the content type before any `;` — after
trimming surrounding whitespace — is exactly `application/json`, and some
exported field carries a `json` tag other than `"-"`; a decode failure
aborts the whole bind with the decode error; otherwise the pass is a no-op
and the body is left unconsumed (the `Bool` of the result is `false`). -/
theorem convertBody_spec (req : Request) (fields : List Field) (dest : List GoValue) :
    (bodyPassCond req fields = false → convertBody req fields dest = .ok (dest, false))
    ∧ (bodyPassCond req fields = true →
        convertBody req fields dest =
          match req.bodyDecode with
          | none => .error .bodyDecode
          | some d => .ok (d, true))
    ∧ (bodyPassCond req fields = true → req.bodyDecode = none →
        ∀ (P : Parsers), Convert P req fields dest = .error .bodyDecode) := by
  have hcond : bodyPassCond req fields = true ↔
      (req.contentLength ≠ 0 ∧
        trimGo (cutSemicolon (lookupGet req.header "Content-Type")) = "application/json" ∧
        fields.any jsonTagged = true) := by
    unfold bodyPassCond
    simp [Bool.and_eq_true, bne_iff_ne, and_assoc]
  refine ⟨?_, ?_, ?_⟩
  · intro h
    unfold convertBody
    by_cases h1 : req.contentLength = 0
    · rw [if_pos h1]
    · rw [if_neg h1]
      by_cases h2 : trimGo (cutSemicolon (lookupGet req.header "Content-Type")) =
          "application/json"
      · rw [if_neg (by simpa using h2)]
        have h3 : fields.any jsonTagged = false := by
          by_contra hc
          rw [Bool.not_eq_false] at hc
          rw [hcond.mpr ⟨h1, h2, hc⟩] at h
          cases h
        exact bodyFieldScan_no_tag req.bodyDecode dest fields h3
      · rw [if_pos (by simpa using h2)]
  · intro h
    obtain ⟨h1, h2, h3⟩ := hcond.mp h
    unfold convertBody
    rw [if_neg h1]
    rw [if_neg (by simpa using h2)]
    exact bodyFieldScan_tagged req.bodyDecode dest fields h3
  · intro h hbd P
    obtain ⟨h1, h2, h3⟩ := hcond.mp h
    unfold Convert
    unfold convertBody
    rw [if_neg h1]
    rw [if_neg (by simpa using h2)]
    rw [bodyFieldScan_tagged req.bodyDecode dest fields h3]
    rw [hbd]

/-- The request of the C5 counterexample: declared content length 3,
content type `application/json ;charset=utf-8` (so the part before the
`;` carries a trailing space and is not exactly the JSON media type), and
a decodable body. -/
def reqTrailingSpace : Request :=
  { contentLength := 3
    header := [("Content-Type", "application/json ;charset=utf-8")]
    query := []
    path := []
    postForm := none
    multipartForm := none
    formFile := []
    bodyDecode := some [.vString "x"]
    contentDisposition := .error ()
    readBody := .error () }

/-- The single body-tagged field of the C5 counterexample. -/
def fieldJsonTagged : Field := ⟨"A", .string, true, true, [("json", "a")]⟩

/-- Counterexample to C5 as stated: on this request the content type
before the `;` is `application/json ` — not *exactly* the JSON media type
— yet the body pass decodes anyway, because the code compares after
`strings.TrimSpace`. -/
theorem convertBody_exact_type_cex :
    cutSemicolon (lookupGet reqTrailingSpace.header "Content-Type") ≠ "application/json"
    ∧ convertBody reqTrailingSpace [fieldJsonTagged] [.vString ""] =
        .ok ([.vString "x"], true) :=
  ⟨by decide, rfl⟩

/-- Witness for the amended C5: the trigger case at a concrete request. -/
theorem convertBody_spec_witness :
    bodyPassCond reqTrailingSpace [fieldJsonTagged] = true
    ∧ convertBody reqTrailingSpace [fieldJsonTagged] [.vString ""] =
        .ok ([.vString "x"], true) :=
  ⟨by decide,
    ((convertBody_spec reqTrailingSpace [fieldJsonTagged] [.vString ""]).2.1
      (by decide)).trans rfl⟩

/-- C6.  For every exported, settable field, the per-field step resets the
field to its zero value before testing any source tag — its result does
not depend on the caller-supplied value at all (first conjunct, for two
arbitrary incoming values) — and a field with no recognised source tag
ends at its zero value (second conjunct). -/
theorem field_reset_before_tags (P : Parsers) (req : Request) (f : Field)
    (v v2 : GoValue) (pform : Option FormMap)
    (hex : f.exported = true) (hcs : f.canSet = true) :
    processField P req f v pform = processField P req f v2 pform
    ∧ (selectSource f = none →
        processField P req f v pform = .ok ⟨f.type.zero, pform, false⟩) := by
  constructor
  · unfold processField
    simp [hex, hcs]
  · intro hsel
    unfold selectSource at hsel
    unfold processField
    split_ifs at hsel with h1 h2 h3 h4 h5 h6
    simp [hex, hcs, h1, h2, h3, h4, h5, h6]

/-- A field with no recognised source tag, used by the C6 witness. -/
def fieldNoTag : Field := ⟨"N", .int, true, true, [("xml", "x")]⟩

/-- A request with no data at all. -/
def reqEmpty : Request := ⟨0, [], [], [], none, none, [], none, .error (), .error ()⟩

/-- Witness for C6 at a concrete tagless field holding a caller default. -/
theorem field_reset_before_tags_witness :
    fieldNoTag.exported = true ∧ fieldNoTag.canSet = true
    ∧ processField trivialParsers reqEmpty fieldNoTag (.vInt 5) none =
        .ok ⟨GoType.int.zero, none, false⟩ := by
  refine ⟨rfl, rfl, ?_⟩
  have h := (field_reset_before_tags trivialParsers reqEmpty fieldNoTag
    (.vInt 5) (.vInt 7) none rfl rfl).2 rfl
  simpa using h

/-- C7.  A `File`-typed (or `*File`-typed) field with a named file tag, on
a multipart request with no part of the tagged name, is left at its zero
value without error and without halting the loop. -/
theorem namedFile_missing_part (P : Parsers) (req : Request) (f : Field)
    (v : GoValue) (pform : Option FormMap) (tag : String)
    (hex : f.exported = true) (hcs : f.canSet = true)
    (hform : tagUsable (lookupTag f "form") = false)
    (hfile : lookupTag f "file" = some tag)
    (ht1 : tag ≠ "") (ht2 : tag ≠ "-") (ht3 : tag ≠ "binary")
    (hty : f.type = .file ∨ f.type = .ptr .file)
    (hct : trimGo (cutSemicolon (lookupGet req.header "Content-Type")) = "multipart/form-data")
    (hmiss : lookupFormFile req.formFile tag = .missing) :
    processField P req f v pform = .ok ⟨f.type.zero, pform, false⟩ := by
  have hnu : fileNamedUsable (some tag) = true := by
    simp [fileNamedUsable, ht1, ht2, ht3]
  unfold processField
  rw [hex, hcs, hfile, hform, hnu]
  simp only [reduceIte, Option.getD_some]
  unfold fileNamedBranch
  rcases hty with h | h <;>
    simp [h, GoType.isPtrKind, hct, hmiss]

/-- The named-file field of the C7 witness. -/
def fieldNamedFile : Field := ⟨"Doc", .file, true, true, [("file", "doc")]⟩

/-- A multipart request carrying no parts. -/
def reqMultipartNoPart : Request :=
  ⟨5, [("Content-Type", "multipart/form-data; boundary=x")], [], [], none, none, [],
    none, .error (), .error ()⟩

/-- Witness for C7 at a concrete multipart request with no matching part. -/
theorem namedFile_missing_part_witness :
    trimGo (cutSemicolon (lookupGet reqMultipartNoPart.header "Content-Type")) =
        "multipart/form-data"
    ∧ processField trivialParsers reqMultipartNoPart fieldNamedFile (.vInt 3) none =
        .ok ⟨GoType.file.zero, none, false⟩ := by
  refine ⟨by decide, ?_⟩
  have h := namedFile_missing_part trivialParsers reqMultipartNoPart fieldNamedFile
    (.vInt 3) none "doc" rfl rfl rfl rfl (by decide) (by decide) (by decide)
    (Or.inl rfl) (by decide) rfl
  simpa using h

/-- Auxiliary, shared by the binary-branch claims: a `file:"binary"` field
of `File`/`*File` type on a request of zero declared content length makes
the per-field step succeed with `early = true`, the field holding the zero
value set at loop entry. -/
theorem processField_binary_zero_len (P : Parsers) (req : Request) (f : Field)
    (v : GoValue) (pform : Option FormMap)
    (hex : f.exported = true) (hcs : f.canSet = true)
    (hform : tagUsable (lookupTag f "form") = false)
    (hbin : lookupTag f "file" = some "binary")
    (hty : f.type = .file ∨ f.type = .ptr .file)
    (hcl : req.contentLength = 0) :
    processField P req f v pform = .ok ⟨f.type.zero, pform, true⟩ := by
  have hnu : fileNamedUsable (some "binary") = false := by
    simp [fileNamedUsable]
  unfold processField
  rw [hex, hcs, hbin, hform, hnu]
  simp only [reduceIte]
  unfold fileBinaryBranch
  rcases hty with h | h <;>
    simp [h, GoType.isPtrKind, hcl]

/-- C8.  A `file:"binary"` field of `File`/`*File` type on a request whose
declared content length is zero: the whole step returns success with the
field exactly as the binary branch found it (the zero value from the loop
reset — first conjunct), the branch itself leaving an arbitrary entry
value untouched (second conjunct). -/
theorem binaryFile_zero_length_unmodified (P : Parsers) (req : Request) (f : Field)
    (v : GoValue) (pform : Option FormMap)
    (hex : f.exported = true) (hcs : f.canSet = true)
    (hform : tagUsable (lookupTag f "form") = false)
    (hbin : lookupTag f "file" = some "binary")
    (hty : f.type = .file ∨ f.type = .ptr .file)
    (hcl : req.contentLength = 0) :
    processField P req f v pform = .ok ⟨f.type.zero, pform, true⟩
    ∧ ∀ (cur : GoValue) (cd : Except Unit (List (String × String)))
        (rb : Except Unit (List Nat)) (fname : String),
        fileBinaryBranch cur 0 cd rb fname f.type pform = .ok ⟨cur, pform, true⟩ := by
  refine ⟨processField_binary_zero_len P req f v pform hex hcs hform hbin hty hcl, ?_⟩
  intro cur cd rb fname
  unfold fileBinaryBranch
  rcases hty with h | h <;>
    simp [h, GoType.isPtrKind]

/-- The `file:"binary"` field of the C8/C9 witnesses. -/
def fieldBinaryFile : Field := ⟨"Raw", .file, true, true, [("file", "binary")]⟩

/-- Witness for C8 on a zero-content-length request. -/
theorem binaryFile_zero_length_unmodified_witness :
    reqEmpty.contentLength = 0
    ∧ processField trivialParsers reqEmpty fieldBinaryFile (.vString "seed") none =
        .ok ⟨GoType.file.zero, none, true⟩ := by
  refine ⟨rfl, ?_⟩
  have h := (binaryFile_zero_length_unmodified trivialParsers reqEmpty fieldBinaryFile
    (.vString "seed") none rfl rfl rfl rfl (Or.inl rfl) rfl).1
  simpa using h

/-- C9.  When the loop reaches a `file:"binary"` field of `File`/`*File`
type on a zero-content-length request, it returns success for the whole
bind at once: every remaining field's value is returned exactly as it came
in — neither reset to zero nor bound — whatever the remaining fields are.
-/
theorem binaryFile_zero_length_halts_loop (P : Parsers) (req : Request) (f : Field)
    (fs : List Field) (v : GoValue) (vs : List GoValue) (pform : Option FormMap)
    (hex : f.exported = true) (hcs : f.canSet = true)
    (hform : tagUsable (lookupTag f "form") = false)
    (hbin : lookupTag f "file" = some "binary")
    (hty : f.type = .file ∨ f.type = .ptr .file)
    (hcl : req.contentLength = 0) :
    convertLoop P req (f :: fs) (v :: vs) pform = .ok (f.type.zero :: vs) := by
  unfold convertLoop
  rw [processField_binary_zero_len P req f v pform hex hcs hform hbin hty hcl]
  rfl

/-- A later field that would fail to bind (slice-of-slice from a header),
showing C9's halt really skips it. -/
def fieldAfterBinary : Field := ⟨"Later", .slice (.slice .int), true, true, [("header", "X")]⟩

/-- Witness for C9: the loop stops at the binary field and hands back the
later field's incoming (non-zero) value although that field could never
bind successfully. -/
theorem binaryFile_zero_length_halts_loop_witness :
    reqEmpty.contentLength = 0
    ∧ convertLoop trivialParsers reqEmpty [fieldBinaryFile, fieldAfterBinary]
        [.vInt 1, .vString "keep"] none = .ok [GoType.file.zero, .vString "keep"] := by
  refine ⟨rfl, ?_⟩
  have h := binaryFile_zero_length_halts_loop trivialParsers reqEmpty fieldBinaryFile
    [fieldAfterBinary] (.vInt 1) [.vString "keep"] none rfl rfl rfl rfl (Or.inl rfl) rfl
  simpa using h

/-- The field of the C10 counterexample: it carries both a usable `form`
tag and a named `file` tag, and its type is `string` (neither `File` nor
`*File`). -/
def fieldFormAndFile : Field := ⟨"F", .string, true, true, [("form", "a"), ("file", "b")]⟩

/-- The request of the C10 counterexample: `PostForm` already parsed (and
empty), zero content length. -/
def reqParsedEmptyForm : Request :=
  ⟨0, [], [], [], some [], none, [], none, .error (), .error ()⟩

/-- Counterexample to C10 as stated: this exported, settable field carries
a named file tag and its type is neither `File` nor `*File`, yet `Convert`
succeeds — the usable `form` tag takes precedence, so the file branch and
its type check are never reached. -/
theorem fileTag_bad_type_not_always_error_cex :
    lookupTag fieldFormAndFile "file" = some "b"
    ∧ fieldFormAndFile.type ≠ .file ∧ fieldFormAndFile.type ≠ .ptr .file
    ∧ Convert trivialParsers reqParsedEmptyForm [fieldFormAndFile] [.vString "x"] =
        .ok ([.vString ""], false) :=
  ⟨rfl, by decide, by decide, rfl⟩

/-- C10 as amended: for every exported, settable field carrying a file tag
(named or `binary`) and no usable `form` tag, whose type is neither `File`
nor `*File`, the per-field step returns the unsupported-type error on
every request — in particular on requests that are not multipart, have no
matching part, or no body at all. -/
theorem fileTag_unsupported_type (P : Parsers) (req : Request) (f : Field)
    (v : GoValue) (pform : Option FormMap) (tag : String)
    (hex : f.exported = true) (hcs : f.canSet = true)
    (hform : tagUsable (lookupTag f "form") = false)
    (hfile : lookupTag f "file" = some tag) (ht1 : tag ≠ "") (ht2 : tag ≠ "-")
    (hty1 : f.type ≠ .file) (hty2 : f.type ≠ .ptr .file) :
    processField P req f v pform = .error (.unsupportedType f.type f.name) := by
  by_cases hb : tag = "binary"
  · subst hb
    have hnu : fileNamedUsable (some "binary") = false := by
      simp [fileNamedUsable]
    unfold processField
    rw [hex, hcs, hfile, hform, hnu]
    unfold fileBinaryBranch
    rcases Bool.eq_false_or_eq_true f.type.isPtrKind with htp | htp <;>
      simp [htp, hty1, hty2]
  · have hnu : fileNamedUsable (some tag) = true := by
      simp [fileNamedUsable, ht1, ht2, hb]
    unfold processField
    rw [hex, hcs, hfile, hform, hnu]
    unfold fileNamedBranch
    rcases Bool.eq_false_or_eq_true f.type.isPtrKind with htp | htp <;>
      simp [htp, hty1, hty2]

/-- The file-tagged, wrongly typed field of the C10 witness. -/
def fieldFileWrongType : Field := ⟨"Bad", .string, true, true, [("file", "doc")]⟩

/-- Witness for the amended C10 on a bodyless, non-multipart request. -/
theorem fileTag_unsupported_type_witness :
    fieldFileWrongType.type ≠ .file
    ∧ processField trivialParsers reqEmpty fieldFileWrongType (.vString "") none =
        .error (.unsupportedType .string "Bad") := by
  refine ⟨by decide, ?_⟩
  have h := fileTag_unsupported_type trivialParsers reqEmpty fieldFileWrongType
    (.vString "") none "doc" rfl rfl rfl rfl (by decide) (by decide) (by decide)
    (by decide)
  simpa using h

end Http2Struct
